import Mathlib

/-!
Shallow embedding of the prometheus-puppetdb reconciliation engine
(`src/main.go`).  Pure logic is translated to Lean functions; side effects
are made explicit:

* the target directory is an association list of (file name, file content),
  wrapped in `Option` (`none` = the directory does not exist);
* the role-mapping file read is an `Except String String` (read may fail);
* the YAML parser for the mapping file is an oracle
  `parse : String → Except String (List RoleMapping)` (out-of-scope library);
* per-role inventory queries are an oracle
  `query : String → Except String (List Node)` (`getNodes` result per role);
* target-file write failures are an oracle `writeFails : String → Bool`
  (indexed by the exporter name).

The regex matching in `cleanupTargetsDir` uses Go's
`regexp.MatchString(exporter + ".(yaml|yml)", name)`: an unanchored search
where `.` matches any character.  `matchString` below embeds that semantics
for exporter names free of regex metacharacters (`regexMetaFree`); theorems
whose truth depends on the matching carry that hypothesis.
-/

set_option autoImplicit false

namespace PrometheusPuppetdb

/-- `Node` from src/main.go: JSON fields `certname` and `value` (the IP). -/
structure Node where
  certname : String
  ipaddress : String
deriving DecidableEq, Repr

/-- `RoleMapping` from src/main.go: one exporter definition. -/
structure RoleMapping where
  exporter : String
  port : Int
  path : String
  scheme : String
  roles : List String
deriving DecidableEq, Repr

/-- `Targets` from src/main.go: one target-file entry.  The Go
`map[string]string` of labels is embedded as an association list in the
insertion order of the source literal. -/
structure Targets where
  targets : List String
  labels : List (String × String)
deriving DecidableEq, Repr

/-- One attempted match of the pattern `<exporter>.(yaml|yml)` at the head of
`s`: the exporter name literally, then one arbitrary character (regex `.`),
then `yaml` or `yml`; the end is not anchored. -/
def matchAt (e : List Char) (s : List Char) : Bool :=
  e.isPrefixOf s &&
    (match s.drop e.length with
     | [] => false
     | _ :: r => "yaml".toList.isPrefixOf r || "yml".toList.isPrefixOf r)

/-- Embedding of `regexp.MatchString(exporter + ".(yaml|yml)", name)` for
exporter names free of regex metacharacters: an unanchored search, so the
pattern may match at any position of `name`. -/
def matchString (exporter name : String) : Bool :=
  name.toList.tails.any (matchAt exporter.toList)

/-- True when the string contains none of Go's regex metacharacters, so that
splicing it into a pattern treats it literally. -/
def regexMetaFree (s : String) : Bool :=
  s.toList.all (fun c => !("\\.+*?()|[]\x7b\x7d^$".toList.contains c))

/-- The keep test of `cleanupTargetsDir`: the file name matches
`<exporter>.(yaml|yml)` for some entry of the role mapping. -/
def keepFile (roles : List RoleMapping) (name : String) : Bool :=
  roles.any (fun r => matchString r.exporter name)

/-- `cleanupTargetsDir` (src/main.go:195): every directory entry whose name
matches no current exporter's pattern is removed. -/
def cleanupTargetsDir (d : List (String × String)) (roles : List RoleMapping) :
    List (String × String) :=
  d.filter (fun f => keepFile roles f.1)

/-- `loadRoleMapping` (src/main.go:182).  The source discards the
`ioutil.ReadFile` error (`err` is immediately overwritten by the
`yaml.Unmarshal` result), so a failed read behaves like unmarshalling the
nil byte slice, i.e. the empty document. -/
def loadRoleMapping (parse : String → Except String (List RoleMapping))
    (readResult : Except String String) : Except String (List RoleMapping) :=
  match readResult with
  | .error _ => parse ""
  | .ok s => parse s

/-- The per-exporter role loop of `main` (src/main.go:129): query each role
in order, appending results; on the first query error, `break` — stop the
remaining roles and keep the nodes accumulated so far. -/
def aggregate (query : String → Except String (List Node)) :
    List String → List Node → List Node
  | [], acc => acc
  | r :: rest, acc =>
    match query r with
    | .error _ => acc
    | .ok ns => aggregate query rest (acc ++ ns)

/-- The entry-building loop of `writeNodes` (src/main.go:253): one `Targets`
entry per node, target string `ipaddress:port`, and the four fixed labels. -/
def buildTargets (nodes : List Node) (port : Int) (path scheme job : String) :
    List Targets :=
  nodes.map (fun node =>
    { targets := [node.ipaddress ++ ":" ++ toString port]
      labels := [("job", job), ("certname", node.certname),
                 ("metrics_path", path), ("scheme", scheme)] })

/-- Serialization of one entry, modelling the YAML block emitted by
`yaml.Marshal` for a `Targets` value. -/
def serializeEntry (t : Targets) : String :=
  "- targets:\n"
    ++ String.join (t.targets.map (fun s => "  - " ++ s ++ "\n"))
    ++ "  labels:\n"
    ++ String.join (t.labels.map (fun p => "    " ++ p.1 ++ ": " ++ p.2 ++ "\n"))

/-- Models `yaml.Marshal(&allTargets)`: a deterministic function of the
entry list (yaml.v2 emits `[]` for an empty slice, a block sequence
otherwise). -/
def serializeTargets (ts : List Targets) : String :=
  match ts with
  | [] => "[]\n"
  | _ => String.join (ts.map serializeEntry)

/-- `ioutil.WriteFile`: replaces the content of an existing entry of that
name, or appends a new entry. -/
def writeFile (d : List (String × String)) (name content : String) :
    List (String × String) :=
  if d.any (fun p => p.1 = name) then
    d.map (fun p => if p.1 = name then (name, content) else p)
  else
    d ++ [(name, content)]

/-- The file content `writeNodes` produces for one exporter given the
query oracle: serialize the entries built from the aggregated nodes. -/
def exporterContent (query : String → Except String (List Node))
    (e : RoleMapping) : String :=
  serializeTargets
    (buildTargets (aggregate query e.roles []) e.port e.path e.scheme e.exporter)

/-- The name/content pair `writeNodes` produces for one exporter. -/
def exporterFile (query : String → Except String (List Node))
    (e : RoleMapping) : String × String :=
  (e.exporter ++ ".yml", exporterContent query e)

/-- The exporter loop of `main` (src/main.go:126-146): aggregate and write
each exporter in order.  A write failure prints the error and `break`s the
exporter loop, abandoning every remaining exporter for this cycle; a query
failure only truncates that exporter's roles (inside `aggregate`) and the
accumulated nodes are still written. -/
def processExporters (query : String → Except String (List Node))
    (writeFails : String → Bool) :
    List RoleMapping → List (String × String) → List (String × String)
  | [], d => d
  | e :: rest, d =>
    if writeFails e.exporter then d
    else
      processExporters query writeFails rest
        (writeFile d (e.exporter ++ ".yml") (exporterContent query e))

/-- How one iteration of the main loop ends. -/
inductive CycleOutcome where
  /-- `os.Exit n` was called mid-cycle (a fatal error path). -/
  | exitCode (n : Nat)
  /-- `break` out of the infinite loop: `main` returns and the process
  terminates normally (exit status 0). -/
  | breakLoop
  /-- the cycle completed, the loop sleeps and runs again. -/
  | sleepRepeat
deriving DecidableEq, Repr

/-- The directory state and outcome after one iteration of the main loop. -/
structure CycleEnd where
  dir : Option (List (String × String))
  outcome : CycleOutcome
deriving DecidableEq, Repr

/-- The process exit status implied by a cycle outcome: `os.Exit n` exits
with `n`; `break` makes `main` return, which is exit status 0; a sleeping
loop has not exited. -/
def exitCodeOf : CycleOutcome → Option Nat
  | .exitCode n => some n
  | .breakLoop => some 0
  | .sleepRepeat => none

/-- One iteration of the main loop (src/main.go:110-156):
load the role mapping (parse failure → print, `os.Exit(1)`);
reconcile the target directory (`ioutil.ReadDir` failure, e.g. the
directory does not exist → print, `os.Exit(1)`);
run the exporter loop; parse the sleep duration (failure → print,
`break`, so `main` returns); otherwise sleep and repeat.
`sleepParseOk` abstracts `time.ParseDuration(cfg.Sleep)` succeeding. -/
def runCycle (parse : String → Except String (List RoleMapping))
    (readResult : Except String String)
    (query : String → Except String (List Node))
    (writeFails : String → Bool) (sleepParseOk : Bool)
    (dir : Option (List (String × String))) : CycleEnd :=
  match loadRoleMapping parse readResult with
  | .error _ => { dir := dir, outcome := .exitCode 1 }
  | .ok roleMapping =>
    match dir with
    | none => { dir := none, outcome := .exitCode 1 }
    | some d =>
      let d2 := processExporters query writeFails roleMapping
        (cleanupTargetsDir d roleMapping)
      if sleepParseOk then { dir := some d2, outcome := .sleepRepeat }
      else { dir := some d2, outcome := .breakLoop }

/-! ## Helper lemmas -/

/-- The role loop stops at the first failing query and keeps the nodes
accumulated from the roles before it (src/main.go:133-136). -/
theorem aggregate_append_error
    (query : String → Except String (List Node)) (rs1 rs2 : List String)
    (rbad msg : String) (acc : List Node)
    (hok : ∀ r ∈ rs1, ∃ ns, query r = Except.ok ns)
    (hbad : query rbad = Except.error msg) :
    aggregate query (rs1 ++ rbad :: rs2) acc = aggregate query rs1 acc := by
  induction rs1 generalizing acc with
  | nil => simp [aggregate, hbad]
  | cons r rs ih =>
    obtain ⟨ns, hr⟩ := hok r (by simp)
    simp only [List.cons_append, aggregate, hr]
    exact ih _ (fun x hx => hok x (by simp [hx]))

/-- Appending the fixed suffix `.yml` to a string is injective. -/
theorem append_yml_inj : Function.Injective (fun s : String => s ++ ".yml") := by
  intro a b h
  have h2 : a.data ++ ".yml".data = b.data ++ ".yml".data := by
    simpa [String.data_append] using congrArg String.data h
  exact String.ext (List.append_cancel_right h2)

/-- Distinct exporter names give distinct target-file names. -/
theorem yml_names_nodup (m : List RoleMapping)
    (h : (m.map RoleMapping.exporter).Nodup) :
    (m.map (fun e => e.exporter ++ ".yml")).Nodup := by
  have hmap : m.map (fun e => e.exporter ++ ".yml")
      = (m.map RoleMapping.exporter).map (fun s => s ++ ".yml") := by
    rw [List.map_map]
    rfl
  rw [hmap]
  exact h.map append_yml_inj

/-- With no write failures, pairwise-distinct target-file names, and a
directory holding none of those names, the exporter loop appends exactly
one file per exporter, in mapping order. -/
theorem processExporters_append
    (query : String → Except String (List Node)) (writeFails : String → Bool)
    (m : List RoleMapping) (d : List (String × String))
    (hw : ∀ e ∈ m, writeFails e.exporter = false)
    (hnodup : (m.map (fun e => e.exporter ++ ".yml")).Nodup)
    (hfresh : ∀ e ∈ m, ∀ p ∈ d, p.1 ≠ e.exporter ++ ".yml") :
    processExporters query writeFails m d = d ++ m.map (exporterFile query) := by
  induction m generalizing d with
  | nil => simp [processExporters]
  | cons e rest ih =>
    have hwe : writeFails e.exporter = false := hw e (by simp)
    have hnot : (d.any (fun p => p.1 = e.exporter ++ ".yml")) = false := by
      simp only [List.any_eq_false, decide_eq_true_eq]
      intro p hp
      exact hfresh e (by simp) p hp
    have hrest : processExporters query writeFails rest
        (d ++ [(e.exporter ++ ".yml", exporterContent query e)])
        = (d ++ [(e.exporter ++ ".yml", exporterContent query e)])
          ++ rest.map (exporterFile query) := by
      refine ih _ (fun x hx => hw x (by simp [hx])) (hnodup.of_cons) ?_
      intro e' he' p hp hpeq
      rcases List.mem_append.mp hp with hpd | hpe
      · exact hfresh e' (by simp [he']) p hpd hpeq
      · have hpfile : p = (e.exporter ++ ".yml", exporterContent query e) := by
          simpa using hpe
        have : e.exporter ++ ".yml" = e'.exporter ++ ".yml" := by
          rw [← hpeq, hpfile]
        have hmem : e.exporter ++ ".yml" ∈ rest.map (fun x => x.exporter ++ ".yml") := by
          rw [this]
          exact List.mem_map_of_mem _ he'
        exact (List.nodup_cons.mp hnodup).1 hmem
    simp only [processExporters, hwe, Bool.false_eq_true, if_false, writeFile,
      hnot, hrest]
    simp [exporterFile]

/-- Querying roles that all return the empty node list accumulates
nothing. -/
theorem aggregate_all_empty (query : String → Except String (List Node))
    (rs : List String) (acc : List Node)
    (h : ∀ r ∈ rs, query r = Except.ok []) :
    aggregate query rs acc = acc := by
  induction rs generalizing acc with
  | nil => rfl
  | cons r rest ih =>
    have hr := h r (by simp)
    simp only [aggregate, hr]
    simpa using ih _ (fun x hx => h x (by simp [hx]))

/-- Characterization of the embedded pattern search: the name matches
`<exporter>.(yaml|yml)` exactly when it contains, contiguously, the
exporter name, one arbitrary character, and then `yaml` or `yml` — with
arbitrary text on either side. -/
theorem matchString_iff (e n : String) :
    matchString e n = true ↔
      ∃ u c v w, n.toList = u ++ e.toList ++ c :: (v ++ w) ∧
        (v = "yaml".toList ∨ v = "yml".toList) := by
  unfold matchString matchAt
  rw [List.any_eq_true]
  constructor
  · rintro ⟨t, ht, hm⟩
    obtain ⟨u, hu⟩ := (List.mem_tails _ _).mp ht
    rw [Bool.and_eq_true] at hm
    obtain ⟨hpre, hrest⟩ := hm
    obtain ⟨s, hs⟩ := List.isPrefixOf_iff_prefix.mp hpre
    subst hs
    rw [List.drop_left] at hrest
    match s, hrest with
    | c :: r, hrest =>
      rw [Bool.or_eq_true] at hrest
      rcases hrest with h4 | h3
      · obtain ⟨w, hw⟩ := List.isPrefixOf_iff_prefix.mp h4
        exact ⟨u, c, "yaml".toList, w, by rw [← hu, hw]; simp, Or.inl rfl⟩
      · obtain ⟨w, hw⟩ := List.isPrefixOf_iff_prefix.mp h3
        exact ⟨u, c, "yml".toList, w, by rw [← hu, hw]; simp, Or.inr rfl⟩
  · rintro ⟨u, c, v, w, hn, hv⟩
    refine ⟨e.toList ++ c :: (v ++ w),
      (List.mem_tails _ _).mpr ⟨u, by rw [hn]; simp⟩, ?_⟩
    rw [Bool.and_eq_true]
    refine ⟨List.isPrefixOf_iff_prefix.mpr (List.prefix_append _ _), ?_⟩
    rw [List.drop_left]
    rcases hv with rfl | rfl
    · simp [List.isPrefixOf_iff_prefix, List.prefix_append]
    · simp [List.isPrefixOf_iff_prefix, List.prefix_append]

/-- The file the writer produces for an exporter matches that exporter's
own cleanup pattern. -/
theorem matchString_self_yml (e : String) :
    matchString e (e ++ ".yml") = true := by
  rw [matchString_iff]
  exact ⟨[], '.', "yml".toList, [],
    by simp [String.toList, String.data_append], Or.inr rfl⟩

/-- The written name is present after a write. -/
theorem writeFile_mem_fst (d : List (String × String)) (n c : String) :
    n ∈ (writeFile d n c).map Prod.fst := by
  unfold writeFile
  split
  · next h =>
    obtain ⟨p, hp, hpn⟩ := List.any_eq_true.mp h
    rw [decide_eq_true_eq] at hpn
    exact List.mem_map.mpr ⟨(n, c), List.mem_map.mpr ⟨p, hp, by simp [hpn]⟩, rfl⟩
  · simp

/-- After a write, every occurrence of the written name holds the written
content. -/
theorem writeFile_snd (d : List (String × String)) (n c : String) :
    ∀ p ∈ writeFile d n c, p.1 = n → p.2 = c := by
  unfold writeFile
  split
  · next _ =>
    intro p hp hpn
    obtain ⟨q, _, hq⟩ := List.mem_map.mp hp
    by_cases hqn : q.1 = n
    · simp only [hqn, if_true] at hq
      rw [← hq]
    · simp only [hqn, if_false] at hq
      exact absurd (hq ▸ hpn) hqn
  · next h =>
    intro p hp hpn
    rcases List.mem_append.mp hp with hpd | hpe
    · have hc : (d.any (fun p => p.1 = n)) = true :=
        List.any_eq_true.mpr ⟨p, hpd, decide_eq_true hpn⟩
      exact absurd hc h
    · have : p = (n, c) := by simpa using hpe
      rw [this]

/-- A write leaves entries of other names untouched. -/
theorem mem_writeFile_of_ne (d : List (String × String)) (n c : String)
    (p : String × String) (hne : p.1 ≠ n) :
    p ∈ writeFile d n c ↔ p ∈ d := by
  unfold writeFile
  split
  · constructor
    · intro hp
      obtain ⟨q, hq, hqp⟩ := List.mem_map.mp hp
      by_cases hqn : q.1 = n
      · simp only [hqn, if_true] at hqp
        exact absurd (by rw [← hqp]) hne
      · simp only [hqn, if_false] at hqp
        rw [← hqp]; exact hq
    · intro hp
      exact List.mem_map.mpr ⟨p, hp, by simp [hne]⟩
  · constructor
    · intro hp
      rcases List.mem_append.mp hp with hpd | hpe
      · exact hpd
      · exact absurd (congrArg Prod.fst (by simpa using hpe)) hne
    · intro hp
      exact List.mem_append.mpr (Or.inl hp)

/-- The name test after a write, for other names. -/
theorem writeFile_mem_fst_of_ne (d : List (String × String)) (n c x : String)
    (hne : x ≠ n) :
    x ∈ (writeFile d n c).map Prod.fst ↔ x ∈ d.map Prod.fst := by
  constructor
  · intro hx
    obtain ⟨p, hp, hpx⟩ := List.mem_map.mp hx
    have hpn : p.1 ≠ n := by rw [hpx]; exact hne
    exact List.mem_map.mpr ⟨p, (mem_writeFile_of_ne d n c p hpn).mp hp, hpx⟩
  · intro hx
    obtain ⟨p, hp, hpx⟩ := List.mem_map.mp hx
    have hpn : p.1 ≠ n := by rw [hpx]; exact hne
    exact List.mem_map.mpr ⟨p, (mem_writeFile_of_ne d n c p hpn).mpr hp, hpx⟩

/-- Rewriting a file that already holds exactly this content is the
identity: this is what makes a repeated cycle leave the directory
byte-for-byte unchanged. -/
theorem writeFile_eq_self (d : List (String × String)) (n c : String)
    (hmem : n ∈ d.map Prod.fst)
    (hall : ∀ p ∈ d, p.1 = n → p.2 = c) : writeFile d n c = d := by
  obtain ⟨p, hp, hpn⟩ := List.mem_map.mp hmem
  have hany : (d.any (fun p => p.1 = n)) = true :=
    List.any_eq_true.mpr ⟨p, hp, decide_eq_true hpn⟩
  have hmap : d.map (fun q => if q.1 = n then (n, c) else q) = d.map id := by
    refine List.map_congr_left ?_
    intro q hq
    by_cases hqn : q.1 = n
    · simp only [hqn, if_true, id]
      have : q.2 = c := hall q hq hqn
      rw [← hqn, ← this]
    · simp [hqn]
  simp [writeFile, hany, hmap]

/-- Exporters processed after a write do not disturb entries of unrelated
names. -/
theorem processExporters_preserve (query : String → Except String (List Node))
    (writeFails : String → Bool) (m : List RoleMapping)
    (d : List (String × String)) (x : String)
    (hx : ∀ e ∈ m, e.exporter ++ ".yml" ≠ x) :
    (x ∈ (processExporters query writeFails m d).map Prod.fst
      ↔ x ∈ d.map Prod.fst) ∧
    ∀ p : String × String, p.1 = x →
      (p ∈ processExporters query writeFails m d ↔ p ∈ d) := by
  induction m generalizing d with
  | nil => exact ⟨Iff.rfl, fun _ _ => Iff.rfl⟩
  | cons e rest ih =>
    by_cases hwe : writeFails e.exporter = true
    · simp [processExporters, hwe]
    · have hne : x ≠ e.exporter ++ ".yml" := fun h => hx e (by simp) h.symm
      have hstep := ih (writeFile d (e.exporter ++ ".yml") (exporterContent query e))
        (fun e' he' => hx e' (by simp [he']))
      constructor
      · rw [show processExporters query writeFails (e :: rest) d
            = processExporters query writeFails rest
              (writeFile d (e.exporter ++ ".yml") (exporterContent query e)) by
            simp [processExporters, hwe]]
        rw [hstep.1]
        exact writeFile_mem_fst_of_ne d _ _ x hne
      · intro p hpx
        rw [show processExporters query writeFails (e :: rest) d
            = processExporters query writeFails rest
              (writeFile d (e.exporter ++ ".yml") (exporterContent query e)) by
            simp [processExporters, hwe]]
        rw [hstep.2 p hpx]
        exact mem_writeFile_of_ne d _ _ p (by rw [hpx]; exact hne)

/-- After a failure-free pass, each processed exporter's file is present
and every occurrence of its name holds that exporter's content. -/
theorem processExporters_writes (query : String → Except String (List Node))
    (writeFails : String → Bool) (m : List RoleMapping)
    (hnodup : (m.map (fun e => e.exporter ++ ".yml")).Nodup)
    (hw : ∀ e ∈ m, writeFails e.exporter = false)
    (e : RoleMapping) (he : e ∈ m) (d : List (String × String)) :
    (e.exporter ++ ".yml")
        ∈ (processExporters query writeFails m d).map Prod.fst ∧
    ∀ p ∈ processExporters query writeFails m d,
      p.1 = e.exporter ++ ".yml" → p.2 = exporterContent query e := by
  induction m generalizing d with
  | nil => exact absurd he (List.not_mem_nil e)
  | cons e' rest ih =>
    have hwe : writeFails e'.exporter = false := hw e' (by simp)
    have hunfold : processExporters query writeFails (e' :: rest) d
        = processExporters query writeFails rest
          (writeFile d (e'.exporter ++ ".yml") (exporterContent query e')) := by
      simp [processExporters, hwe]
    rcases List.mem_cons.mp he with rfl | hrest
    · have hpres := processExporters_preserve query writeFails rest
        (writeFile d (e.exporter ++ ".yml") (exporterContent query e))
        (e.exporter ++ ".yml")
        (fun e'' he'' h =>
          (List.nodup_cons.mp hnodup).1
            (by
              show e.exporter ++ ".yml"
                ∈ List.map (fun x => x.exporter ++ ".yml") rest
              rw [← h]
              exact List.mem_map_of_mem _ he''))
      constructor
      · rw [hunfold, hpres.1]
        exact writeFile_mem_fst d _ _
      · intro p hp hpn
        rw [hunfold] at hp
        rw [hpres.2 p hpn] at hp
        exact writeFile_snd d _ _ p hp hpn
    · rw [hunfold]
      exact ih (List.Nodup.of_cons hnodup)
        (fun x hx => hw x (by simp [hx])) hrest _

/-- Rewriting every exporter's file with the content it already holds
leaves the directory unchanged. -/
theorem processExporters_fixpoint (query : String → Except String (List Node))
    (writeFails : String → Bool) (m : List RoleMapping)
    (d : List (String × String))
    (hw : ∀ e ∈ m, writeFails e.exporter = false)
    (h : ∀ e ∈ m, (e.exporter ++ ".yml") ∈ d.map Prod.fst ∧
      ∀ p ∈ d, p.1 = e.exporter ++ ".yml" → p.2 = exporterContent query e) :
    processExporters query writeFails m d = d := by
  induction m with
  | nil => rfl
  | cons e rest ih =>
    have hwe : writeFails e.exporter = false := hw e (by simp)
    have hfix : writeFile d (e.exporter ++ ".yml") (exporterContent query e) = d :=
      writeFile_eq_self _ _ _ (h e (by simp)).1 (h e (by simp)).2
    rw [show processExporters query writeFails (e :: rest) d
        = processExporters query writeFails rest
          (writeFile d (e.exporter ++ ".yml") (exporterContent query e)) by
        simp [processExporters, hwe]]
    rw [hfix]
    exact ih (fun x hx => hw x (by simp [hx])) (fun x hx => h x (by simp [hx]))

/-- A write failure stops the exporter loop exactly where it happens: the
exporters before the failing one are processed as usual, and the failing
one and every exporter after it are skipped (the `break` at
src/main.go:144 exits the outer loop). -/
theorem processExporters_break_at (query : String → Except String (List Node))
    (writeFails : String → Bool) (m1 rest : List RoleMapping)
    (e : RoleMapping) (d : List (String × String))
    (hw1 : ∀ x ∈ m1, writeFails x.exporter = false)
    (hwe : writeFails e.exporter = true) :
    processExporters query writeFails (m1 ++ e :: rest) d
      = processExporters query writeFails m1 d := by
  induction m1 generalizing d with
  | nil => simp [processExporters, hwe]
  | cons x m1' ih =>
    have hwx : writeFails x.exporter = false := hw1 x (by simp)
    simp only [List.cons_append, processExporters, hwx, Bool.false_eq_true,
      if_false]
    exact ih _ (fun y hy => hw1 y (by simp [hy]))

/-- The keep predicate holds of every written file's name. -/
theorem keepFile_yml (m : List RoleMapping) (e : RoleMapping) (he : e ∈ m) :
    keepFile m (e.exporter ++ ".yml") = true := by
  unfold keepFile
  rw [List.any_eq_true]
  exact ⟨e, he, matchString_self_yml e.exporter⟩

/-- Every entry surviving reconciliation satisfies the keep predicate. -/
theorem cleanup_keeps (d : List (String × String)) (m : List RoleMapping) :
    ∀ p ∈ cleanupTargetsDir d m, keepFile m p.1 = true :=
  fun _ hp => (List.mem_filter.mp hp).2

/-- Reconciliation is the identity on a directory all of whose entries
pass the keep test. -/
theorem cleanup_eq_self (d : List (String × String)) (m : List RoleMapping)
    (hd : ∀ p ∈ d, keepFile m p.1 = true) : cleanupTargetsDir d m = d :=
  List.filter_eq_self.mpr hd

/-- A failure-free exporter pass only adds or rewrites files whose names
pass the keep test, so the property is preserved. -/
theorem processExporters_keeps (query : String → Except String (List Node))
    (writeFails : String → Bool) (m m' : List RoleMapping)
    (hsub : ∀ e ∈ m', e ∈ m) (d : List (String × String))
    (hd : ∀ p ∈ d, keepFile m p.1 = true) :
    ∀ p ∈ processExporters query writeFails m' d, keepFile m p.1 = true := by
  induction m' generalizing d with
  | nil => exact hd
  | cons e rest ih =>
    intro p hp
    by_cases hwe : writeFails e.exporter = true
    · rw [show processExporters query writeFails (e :: rest) d = d by
        simp [processExporters, hwe]] at hp
      exact hd p hp
    · rw [show processExporters query writeFails (e :: rest) d
          = processExporters query writeFails rest
            (writeFile d (e.exporter ++ ".yml") (exporterContent query e)) by
          simp [processExporters, hwe]] at hp
      refine ih (fun x hx => hsub x (by simp [hx])) _ ?_ p hp
      intro q hq
      by_cases hqn : q.1 = e.exporter ++ ".yml"
      · rw [hqn]
        exact keepFile_yml m e (hsub e (by simp))
      · exact hd q ((mem_writeFile_of_ne d _ _ q hqn).mp hq)

/-! ## Claim theorems -/

/-- C1, counterexample: a failed read of the role-mapping file does NOT
terminate the process.  `ioutil.ReadFile`'s error is overwritten before it
is checked (src/main.go:184-186), so the cycle proceeds with an empty
mapping: here it deletes the existing target file and the loop sleeps and
repeats, instead of exiting with a non-zero code. -/
theorem c1_counterexample :
    runCycle (fun _ => Except.ok []) (Except.error "read role-mapping.yaml failed")
      (fun _ => Except.ok []) (fun _ => false) true (some [("a.yml", "x")])
      = { dir := some [], outcome := CycleOutcome.sleepRepeat } := rfl

/-- C1 (amended): only a role-mapping PARSE failure is fatal: when
`loadRoleMapping` returns an error (the `yaml.Unmarshal` error, the one the
source checks), the process prints it and exits with code 1 immediately,
touching nothing else in that cycle. -/
theorem c1_parse_failure_fatal (parse : String → Except String (List RoleMapping))
    (readResult : Except String String)
    (query : String → Except String (List Node)) (writeFails : String → Bool)
    (sleepParseOk : Bool) (dir : Option (List (String × String))) (msg : String)
    (h : loadRoleMapping parse readResult = Except.error msg) :
    runCycle parse readResult query writeFails sleepParseOk dir
      = { dir := dir, outcome := CycleOutcome.exitCode 1 } := by
  simp [runCycle, h]

/-- Witness for C1 (amended) at a concrete unparsable mapping file. -/
theorem c1_witness :
    runCycle (fun _ => Except.error "yaml: unmarshal errors") (Except.ok ":")
      (fun _ => Except.ok []) (fun _ => false) true (some [("a.yml", "x")])
      = { dir := some [("a.yml", "x")], outcome := CycleOutcome.exitCode 1 } :=
  c1_parse_failure_fatal _ _ _ _ _ _ "yaml: unmarshal errors" rfl

/-- C2: a failed read of the role-mapping file yields `ok []` (the read
error is discarded and unmarshalling the nil byte slice leaves the slice
nil), the cycle proceeds, and the reconciliation pass deletes every file of
the target directory, ending with an empty directory and a sleeping loop. -/
theorem c2_read_failure_empty_mapping
    (parse : String → Except String (List RoleMapping)) (msg : String)
    (query : String → Except String (List Node)) (writeFails : String → Bool)
    (d : List (String × String)) (hparse : parse "" = Except.ok []) :
    loadRoleMapping parse (Except.error msg) = Except.ok [] ∧
    runCycle parse (Except.error msg) query writeFails true (some d)
      = { dir := some [], outcome := CycleOutcome.sleepRepeat } := by
  refine ⟨by simp [loadRoleMapping, hparse], ?_⟩
  simp [runCycle, loadRoleMapping, hparse, processExporters, cleanupTargetsDir, keepFile]

/-- Witness for C2 at a concrete directory and parser. -/
theorem c2_witness :
    loadRoleMapping (fun _ => Except.ok []) (Except.error "no such file")
      = Except.ok [] ∧
    runCycle (fun _ => Except.ok []) (Except.error "no such file")
      (fun _ => Except.ok []) (fun _ => false) true
      (some [("a.yml", "x"), ("b.yaml", "y")])
      = { dir := some [], outcome := CycleOutcome.sleepRepeat } :=
  c2_read_failure_empty_mapping _ "no such file" _ _ _ rfl

/-- C5, counterexample: a write failure for exporter `e1` `break`s the
OUTER exporter loop (src/main.go:144), so exporter `e2` of the same cycle
is never written: starting from an empty directory the cycle ends with no
files at all (in particular no `e2.yml`), and the loop sleeps. -/
theorem c5_counterexample :
    runCycle
      (fun _ => Except.ok
        [{ exporter := "e1", port := 1, path := "/m", scheme := "http", roles := [] },
         { exporter := "e2", port := 2, path := "/m", scheme := "http", roles := [] }])
      (Except.ok "") (fun _ => Except.ok []) (fun e => e == "e1") true (some [])
      = { dir := some [], outcome := CycleOutcome.sleepRepeat } := rfl

/-- C5 (amended): a failure to write one exporter's target file — at ANY
position of the mapping — abandons the remainder of the exporter loop for
this cycle: the exporters before the failing one are processed as usual,
while the failing one and every subsequent exporter are not written this
cycle, and the loop still sleeps and retries on the next cycle. -/
theorem c5_write_failure_breaks_cycle
    (parse : String → Except String (List RoleMapping))
    (readResult : Except String String)
    (query : String → Except String (List Node)) (writeFails : String → Bool)
    (m1 rest : List RoleMapping) (e : RoleMapping) (d : List (String × String))
    (hload : loadRoleMapping parse readResult = Except.ok (m1 ++ e :: rest))
    (hw1 : ∀ x ∈ m1, writeFails x.exporter = false)
    (hwe : writeFails e.exporter = true) :
    runCycle parse readResult query writeFails true (some d)
      = { dir := some (processExporters query writeFails m1
            (cleanupTargetsDir d (m1 ++ e :: rest))),
          outcome := CycleOutcome.sleepRepeat } := by
  simp [runCycle, hload,
    processExporters_break_at query writeFails m1 rest e _ hw1 hwe]

/-- Witness for C5 (amended) at a mid-mapping failure: of the three
exporters `a`, `e`, `c`, only `e` fails to write; the cycle performs
exactly `a`'s write after reconciliation and skips `e` and `c`. -/
theorem c5_witness :
    runCycle
      (fun _ => Except.ok
        [{ exporter := "a", port := 1, path := "/m", scheme := "http", roles := [] },
         { exporter := "e", port := 2, path := "/m", scheme := "http", roles := [] },
         { exporter := "c", port := 3, path := "/m", scheme := "http", roles := [] }])
      (Except.ok "") (fun _ => Except.ok []) (fun x => x == "e") true
      (some [("c.yml", "old")])
      = { dir := some (processExporters (fun _ => Except.ok [])
            (fun x => x == "e")
            [{ exporter := "a", port := 1, path := "/m", scheme := "http", roles := [] }]
            (cleanupTargetsDir [("c.yml", "old")]
              [{ exporter := "a", port := 1, path := "/m", scheme := "http", roles := [] },
               { exporter := "e", port := 2, path := "/m", scheme := "http", roles := [] },
               { exporter := "c", port := 3, path := "/m", scheme := "http", roles := [] }])),
          outcome := CycleOutcome.sleepRepeat } :=
  c5_write_failure_breaks_cycle
    (fun _ => Except.ok
      [{ exporter := "a", port := 1, path := "/m", scheme := "http", roles := [] },
       { exporter := "e", port := 2, path := "/m", scheme := "http", roles := [] },
       { exporter := "c", port := 3, path := "/m", scheme := "http", roles := [] }])
    (Except.ok "") (fun _ => Except.ok []) (fun x => x == "e")
    [{ exporter := "a", port := 1, path := "/m", scheme := "http", roles := [] }]
    [{ exporter := "c", port := 3, path := "/m", scheme := "http", roles := [] }]
    { exporter := "e", port := 2, path := "/m", scheme := "http", roles := [] }
    [("c.yml", "old")] rfl
    (by
      intro x hx
      simp only [List.mem_singleton] at hx
      subst hx
      rfl)
    rfl

/-- C7, counterexample: a sleep-duration parse failure `break`s the loop
(src/main.go:152); `main` then returns, which is exit status 0, not the
non-zero exit code the claim requires. -/
theorem c7_counterexample :
    (runCycle (fun _ => Except.ok []) (Except.ok "") (fun _ => Except.ok [])
        (fun _ => false) false (some [])).outcome = CycleOutcome.breakLoop ∧
    exitCodeOf CycleOutcome.breakLoop = some 0 := ⟨rfl, rfl⟩

/-- C7 (amended): a sleep-duration parse failure stops the loop without a
further cycle, but via `break`: `main` returns and the process exits with
status 0, not 1. -/
theorem c7_sleep_parse_failure_exits_zero
    (parse : String → Except String (List RoleMapping))
    (readResult : Except String String)
    (query : String → Except String (List Node)) (writeFails : String → Bool)
    (d : List (String × String)) (m : List RoleMapping)
    (hload : loadRoleMapping parse readResult = Except.ok m) :
    (runCycle parse readResult query writeFails false (some d)).outcome
        = CycleOutcome.breakLoop ∧
    exitCodeOf
        (runCycle parse readResult query writeFails false (some d)).outcome
      = some 0 := by
  simp [runCycle, hload, exitCodeOf]

/-- Witness for C7 (amended) at a concrete cycle. -/
theorem c7_witness :
    (runCycle (fun _ => Except.ok []) (Except.ok "") (fun _ => Except.ok [])
        (fun _ => false) false (some [("a.yml", "x")])).outcome
      = CycleOutcome.breakLoop ∧
    exitCodeOf
        (runCycle (fun _ => Except.ok []) (Except.ok "") (fun _ => Except.ok [])
          (fun _ => false) false (some [("a.yml", "x")])).outcome
      = some 0 :=
  c7_sleep_parse_failure_exits_zero _ _ _ _ _ [] rfl

/-- C10: when the target directory does not exist at the start of a cycle,
`ioutil.ReadDir` in `cleanupTargetsDir` fails, `main` prints the error and
exits with code 1 before the exporter loop runs, so the directory is never
created (`os.MkdirAll` lives only in `writeNodes`, which is never
reached). -/
theorem c10_missing_dir_fatal
    (parse : String → Except String (List RoleMapping))
    (readResult : Except String String)
    (query : String → Except String (List Node)) (writeFails : String → Bool)
    (sleepParseOk : Bool) (m : List RoleMapping)
    (hload : loadRoleMapping parse readResult = Except.ok m) :
    runCycle parse readResult query writeFails sleepParseOk none
      = { dir := none, outcome := CycleOutcome.exitCode 1 } := by
  simp [runCycle, hload]

/-- Witness for C10 at a concrete configuration. -/
theorem c10_witness :
    runCycle (fun _ => Except.ok
        [{ exporter := "a", port := 9100, path := "/m", scheme := "http",
           roles := ["web"] }])
      (Except.ok "") (fun _ => Except.ok []) (fun _ => false) true none
      = { dir := none, outcome := CycleOutcome.exitCode 1 } :=
  c10_missing_dir_fatal _ _ _ _ _ _ rfl

/-- C6: a failing inventory query for one role of an exporter stops that
exporter's remaining roles; the nodes accumulated from the roles already
processed are still written to that exporter's target file, and the
exporter loop continues with the rest of the mapping. -/
theorem c6_query_failure_truncates_roles
    (query : String → Except String (List Node)) (writeFails : String → Bool)
    (e : RoleMapping) (rest : List RoleMapping) (d : List (String × String))
    (rs1 rs2 : List String) (rbad msg : String)
    (hroles : e.roles = rs1 ++ rbad :: rs2)
    (hok : ∀ r ∈ rs1, ∃ ns, query r = Except.ok ns)
    (hbad : query rbad = Except.error msg)
    (hw : writeFails e.exporter = false) :
    aggregate query e.roles [] = aggregate query rs1 [] ∧
    processExporters query writeFails (e :: rest) d
      = processExporters query writeFails rest
          (writeFile d (e.exporter ++ ".yml")
            (serializeTargets
              (buildTargets (aggregate query rs1 []) e.port e.path e.scheme
                e.exporter))) := by
  have hagg : aggregate query e.roles [] = aggregate query rs1 [] := by
    rw [hroles]
    exact aggregate_append_error query rs1 rs2 rbad msg [] hok hbad
  refine ⟨hagg, ?_⟩
  simp [processExporters, hw, exporterContent, hagg]

/-- Witness for C6: the `db` query fails after `web` succeeded; the `web`
node is still written for `collectd` and the next exporter is processed. -/
theorem c6_witness :
    aggregate
        (fun r => if r == "web"
          then Except.ok [{ certname := "n1", ipaddress := "10.0.0.1" }]
          else Except.error "boom")
        ["web", "db", "extra"] []
      = aggregate
          (fun r => if r == "web"
            then Except.ok [{ certname := "n1", ipaddress := "10.0.0.1" }]
            else Except.error "boom")
          ["web"] [] ∧
    processExporters
        (fun r => if r == "web"
          then Except.ok [{ certname := "n1", ipaddress := "10.0.0.1" }]
          else Except.error "boom")
        (fun _ => false)
        [{ exporter := "collectd", port := 9103, path := "/metrics",
           scheme := "http", roles := ["web", "db", "extra"] },
         { exporter := "node", port := 9100, path := "/metrics",
           scheme := "http", roles := ["web"] }] []
      = processExporters
          (fun r => if r == "web"
            then Except.ok [{ certname := "n1", ipaddress := "10.0.0.1" }]
            else Except.error "boom")
          (fun _ => false)
          [{ exporter := "node", port := 9100, path := "/metrics",
             scheme := "http", roles := ["web"] }]
          (writeFile [] ("collectd" ++ ".yml")
            (serializeTargets
              (buildTargets
                (aggregate
                  (fun r => if r == "web"
                    then Except.ok [{ certname := "n1", ipaddress := "10.0.0.1" }]
                    else Except.error "boom")
                  ["web"] [])
                9103 "/metrics" "http" "collectd"))) :=
  c6_query_failure_truncates_roles _ _
    { exporter := "collectd", port := 9103, path := "/metrics",
      scheme := "http", roles := ["web", "db", "extra"] }
    _ _ ["web"] ["extra"] "db" "boom" rfl
    (by
      intro r hr
      simp only [List.mem_singleton] at hr
      subst hr
      exact ⟨_, rfl⟩)
    rfl rfl

/-- C8: the writer builds exactly one entry per node, in list order; an
entry's target string is `address:port` and its labels are exactly the four
keys `job`, `certname`, `metrics_path`, `scheme`; instantiated at the
spec's concrete single-node example. -/
theorem c8_one_entry_per_node (nodes : List Node) (port : Int)
    (path scheme job : String) :
    (buildTargets nodes port path scheme job).length = nodes.length ∧
    (∀ i (h : i < nodes.length),
      (buildTargets nodes port path scheme job).get
          ⟨i, by simpa [buildTargets] using h⟩
        = { targets := [(nodes.get ⟨i, h⟩).ipaddress ++ ":" ++ toString port]
            labels := [("job", job), ("certname", (nodes.get ⟨i, h⟩).certname),
                       ("metrics_path", path), ("scheme", scheme)] }) ∧
    buildTargets [{ certname := "n1", ipaddress := "10.0.0.1" }] 9103
        "/metrics" "http" "collectd"
      = [{ targets := ["10.0.0.1:9103"],
           labels := [("job", "collectd"), ("certname", "n1"),
                      ("metrics_path", "/metrics"), ("scheme", "http")] }] := by
  refine ⟨by simp [buildTargets], fun i h => ?_, rfl⟩
  simp [buildTargets]

/-- Witness for C8 at the spec's concrete example, entry index 0. -/
theorem c8_witness :
    (buildTargets [{ certname := "n1", ipaddress := "10.0.0.1" }] 9103
        "/metrics" "http" "collectd").get ⟨0, by simp [buildTargets]⟩
      = { targets := ["10.0.0.1:9103"],
          labels := [("job", "collectd"), ("certname", "n1"),
                     ("metrics_path", "/metrics"), ("scheme", "http")] } :=
  (c8_one_entry_per_node [{ certname := "n1", ipaddress := "10.0.0.1" }] 9103
      "/metrics" "http" "collectd").2.1 0 (by decide)

/-- C3, counterexample: with one exporter `a` and a pre-existing file
`a.yaml`, one fully successful cycle ends with TWO files, not one:
reconciliation keeps `a.yaml` (it matches the pattern `a.(yaml|yml)`), and
the writer adds `a.yml` next to it. -/
theorem c3_counterexample :
    runCycle
        (fun _ => Except.ok
          [{ exporter := "a", port := 9100, path := "/metrics",
             scheme := "http", roles := [] }])
        (Except.ok "") (fun _ => Except.ok []) (fun _ => false) true
        (some [("a.yaml", "old")])
      = { dir := some [("a.yaml", "old"), ("a.yml", serializeTargets [])],
          outcome := CycleOutcome.sleepRepeat } ∧
    [("a.yaml", "old"), ("a.yml", serializeTargets [])].length ≠ 1 :=
  ⟨rfl, by decide⟩

/-- C3 (amended): starting from an EMPTY target directory, one successful
cycle (mapping loads, every write succeeds) over N exporters with distinct
names ends with exactly N files, named `<exporter>.yml` in mapping order;
an exporter all of whose roles return zero nodes still gets its file, with
the serialization of the empty entry list as content. -/
theorem c3_exact_files_from_empty_dir
    (parse : String → Except String (List RoleMapping))
    (readResult : Except String String)
    (query : String → Except String (List Node)) (writeFails : String → Bool)
    (m : List RoleMapping)
    (hload : loadRoleMapping parse readResult = Except.ok m)
    (hnodup : (m.map RoleMapping.exporter).Nodup)
    (hw : ∀ e ∈ m, writeFails e.exporter = false) :
    runCycle parse readResult query writeFails true (some [])
      = { dir := some (m.map (exporterFile query)),
          outcome := CycleOutcome.sleepRepeat } ∧
    (m.map (exporterFile query)).map Prod.fst
      = m.map (fun e => e.exporter ++ ".yml") ∧
    (m.map (exporterFile query)).length = m.length ∧
    (∀ e ∈ m, (∀ r ∈ e.roles, query r = Except.ok []) →
      exporterFile query e = (e.exporter ++ ".yml", serializeTargets [])) := by
  refine ⟨?_, ?_, by simp, ?_⟩
  · have hproc := processExporters_append query writeFails m [] hw
      (yml_names_nodup m hnodup) (by simp)
    simp [runCycle, hload, cleanupTargetsDir, hproc]
  · simp [exporterFile]
  · intro e he hq
    simp [exporterFile, exporterContent,
      aggregate_all_empty query e.roles [] hq, buildTargets]

/-- Witness for C3 (amended): two exporters, the second matching zero
nodes; the cycle ends with exactly the two files. -/
theorem c3_witness :
    runCycle
        (fun _ => Except.ok
          [{ exporter := "collectd", port := 9103, path := "/metrics",
             scheme := "http", roles := ["web"] },
           { exporter := "empty", port := 9999, path := "/m",
             scheme := "http", roles := ["none"] }])
        (Except.ok "")
        (fun r => if r == "web"
          then Except.ok [{ certname := "n1", ipaddress := "10.0.0.1" }]
          else Except.ok [])
        (fun _ => false) true (some [])
      = { dir := some
            ([{ exporter := "collectd", port := 9103, path := "/metrics",
                scheme := "http", roles := ["web"] },
              { exporter := "empty", port := 9999, path := "/m",
                scheme := "http", roles := ["none"] }].map
              (exporterFile
                (fun r => if r == "web"
                  then Except.ok [{ certname := "n1", ipaddress := "10.0.0.1" }]
                  else Except.ok []))),
          outcome := CycleOutcome.sleepRepeat } ∧
    ([{ exporter := "collectd", port := 9103, path := "/metrics",
        scheme := "http", roles := ["web"] },
      { exporter := "empty", port := 9999, path := "/m",
        scheme := "http", roles := ["none"] }].map
        (exporterFile
          (fun r => if r == "web"
            then Except.ok [{ certname := "n1", ipaddress := "10.0.0.1" }]
            else Except.ok []))).map Prod.fst
      = ([{ exporter := "collectd", port := 9103, path := "/metrics",
            scheme := "http", roles := ["web"] },
          { exporter := "empty", port := 9999, path := "/m",
            scheme := "http", roles := ["none"] }] : List RoleMapping).map
          (fun e => e.exporter ++ ".yml") ∧
    ([{ exporter := "collectd", port := 9103, path := "/metrics",
        scheme := "http", roles := ["web"] },
      { exporter := "empty", port := 9999, path := "/m",
        scheme := "http", roles := ["none"] }].map
        (exporterFile
          (fun r => if r == "web"
            then Except.ok [{ certname := "n1", ipaddress := "10.0.0.1" }]
            else Except.ok []))).length
      = ([{ exporter := "collectd", port := 9103, path := "/metrics",
            scheme := "http", roles := ["web"] },
          { exporter := "empty", port := 9999, path := "/m",
            scheme := "http", roles := ["none"] }] : List RoleMapping).length ∧
    (∀ e ∈ ([{ exporter := "collectd", port := 9103, path := "/metrics",
               scheme := "http", roles := ["web"] },
             { exporter := "empty", port := 9999, path := "/m",
               scheme := "http", roles := ["none"] }] : List RoleMapping),
      (∀ r ∈ e.roles,
        ((fun r => if r == "web"
          then Except.ok [{ certname := "n1", ipaddress := "10.0.0.1" }]
          else Except.ok []) : String → Except String (List Node)) r
          = Except.ok []) →
      exporterFile
          (fun r => if r == "web"
            then Except.ok [{ certname := "n1", ipaddress := "10.0.0.1" }]
            else Except.ok []) e
        = (e.exporter ++ ".yml", serializeTargets [])) :=
  c3_exact_files_from_empty_dir
    (fun _ => Except.ok
      [{ exporter := "collectd", port := 9103, path := "/metrics",
         scheme := "http", roles := ["web"] },
       { exporter := "empty", port := 9999, path := "/m",
         scheme := "http", roles := ["none"] }])
    (Except.ok "")
    (fun r => if r == "web"
      then Except.ok [{ certname := "n1", ipaddress := "10.0.0.1" }]
      else Except.ok [])
    (fun _ => false)
    [{ exporter := "collectd", port := 9103, path := "/metrics",
       scheme := "http", roles := ["web"] },
     { exporter := "empty", port := 9999, path := "/m",
       scheme := "http", roles := ["none"] }]
    rfl (by decide) (fun _ _ => rfl)

/-- C4, counterexample: matching is the unanchored Go regex
`<exporter>.(yaml|yml)`, not equality with `<exporter>.yml/.yaml`.  With
the single exporter `r` — which is NOT named `unknown-exporter` — the entry
`unknown-exporter.yml` is KEPT during reconciliation, because the pattern
`r.(yaml|yml)` matches the substring `r.yml`; the claim requires it to be
deleted. -/
theorem c4_counterexample :
    cleanupTargetsDir [("unknown-exporter.yml", "x")]
        [{ exporter := "r", port := 9100, path := "/m", scheme := "http",
           roles := ["role1"] }]
      = [("unknown-exporter.yml", "x")] ∧
    matchString "r" "unknown-exporter.yml" = true ∧
    "r" ≠ "unknown-exporter" := ⟨rfl, rfl, by decide⟩

/-- C4 (amended): a directory entry survives reconciliation iff its name
contains, for some exporter of the current mapping (metacharacter-free),
a contiguous run of the exporter name, one arbitrary character, then `yaml`
or `yml`; equivalently it is deleted iff no exporter's unanchored pattern
`<exporter>.(yaml|yml)` matches anywhere in the name. -/
theorem c4_kept_iff_pattern_match (roles : List RoleMapping)
    (d : List (String × String)) (f : String × String)
    (_hmeta : ∀ r ∈ roles, regexMetaFree r.exporter = true)
    (hf : f ∈ d) :
    f ∈ cleanupTargetsDir d roles ↔
      ∃ r ∈ roles, ∃ u c v w,
        f.1.toList = u ++ r.exporter.toList ++ c :: (v ++ w) ∧
        (v = "yaml".toList ∨ v = "yml".toList) := by
  unfold cleanupTargetsDir keepFile
  rw [List.mem_filter]
  simp only [hf, true_and, List.any_eq_true, matchString_iff]

/-- Witness for C4 (amended): for exporter `a`, the entry `a.yml` is kept —
its name decomposes as `[] ++ "a" ++ '.' :: ("yml" ++ [])`. -/
theorem c4_witness :
    (("a.yml", "x") ∈ cleanupTargetsDir [("a.yml", "x")]
        [{ exporter := "a", port := 9100, path := "/m", scheme := "http",
           roles := ["role1"] }] ↔
      ∃ r ∈ ([{ exporter := "a", port := 9100, path := "/m",
                scheme := "http", roles := ["role1"] }] : List RoleMapping),
        ∃ u c v w,
          ("a.yml", "x").1.toList = u ++ r.exporter.toList ++ c :: (v ++ w) ∧
          (v = "yaml".toList ∨ v = "yml".toList)) :=
  c4_kept_iff_pattern_match
    [{ exporter := "a", port := 9100, path := "/m", scheme := "http",
       roles := ["role1"] }]
    [("a.yml", "x")] ("a.yml", "x") (by decide) (by simp)

/-- C9: with an unchanged mapping and unchanged inventory-query results, a
second consecutive successful cycle reproduces the first cycle's directory
state byte-for-byte: reconciliation keeps every file the first cycle left
(each written file matches its own exporter's pattern), and every rewrite
deposits identical content, so the second cycle is the identity on the
state the first produced. -/
theorem c9_consecutive_cycles_idempotent
    (parse : String → Except String (List RoleMapping))
    (readResult : Except String String)
    (query : String → Except String (List Node)) (writeFails : String → Bool)
    (m : List RoleMapping) (d0 : List (String × String))
    (hload : loadRoleMapping parse readResult = Except.ok m)
    (_hmeta : ∀ e ∈ m, regexMetaFree e.exporter = true)
    (hnodup : (m.map RoleMapping.exporter).Nodup)
    (hw : ∀ e ∈ m, writeFails e.exporter = false) :
    runCycle parse readResult query writeFails true
        ((runCycle parse readResult query writeFails true (some d0)).dir)
      = runCycle parse readResult query writeFails true (some d0) := by
  have hnodupY := yml_names_nodup m hnodup
  have hcycle1 : runCycle parse readResult query writeFails true (some d0)
      = { dir := some (processExporters query writeFails m
            (cleanupTargetsDir d0 m)),
          outcome := CycleOutcome.sleepRepeat } := by
    simp [runCycle, hload]
  have hkept : ∀ p ∈ processExporters query writeFails m
      (cleanupTargetsDir d0 m), keepFile m p.1 = true :=
    processExporters_keeps query writeFails m m (fun _ he => he)
      (cleanupTargetsDir d0 m) (cleanup_keeps d0 m)
  have hclean : cleanupTargetsDir
      (processExporters query writeFails m (cleanupTargetsDir d0 m)) m
      = processExporters query writeFails m (cleanupTargetsDir d0 m) :=
    cleanup_eq_self _ m hkept
  have hfix : processExporters query writeFails m
      (processExporters query writeFails m (cleanupTargetsDir d0 m))
      = processExporters query writeFails m (cleanupTargetsDir d0 m) :=
    processExporters_fixpoint query writeFails m _ hw
      (fun e he => processExporters_writes query writeFails m hnodupY hw e he
        (cleanupTargetsDir d0 m))
  rw [hcycle1]
  simp [runCycle, hload, hclean, hfix]

/-- Witness for C9: one exporter `a`, one pre-existing stale file and one
surviving `a.yaml`; the second cycle reproduces the first one's state. -/
theorem c9_witness :
    runCycle
        (fun _ => Except.ok
          [{ exporter := "a", port := 9100, path := "/metrics",
             scheme := "http", roles := ["web"] }])
        (Except.ok "")
        (fun _ => Except.ok [{ certname := "n1", ipaddress := "10.0.0.1" }])
        (fun _ => false) true
        ((runCycle
          (fun _ => Except.ok
            [{ exporter := "a", port := 9100, path := "/metrics",
               scheme := "http", roles := ["web"] }])
          (Except.ok "")
          (fun _ => Except.ok [{ certname := "n1", ipaddress := "10.0.0.1" }])
          (fun _ => false) true
          (some [("stale.yml", "x"), ("a.yaml", "y")])).dir)
      = runCycle
          (fun _ => Except.ok
            [{ exporter := "a", port := 9100, path := "/metrics",
               scheme := "http", roles := ["web"] }])
          (Except.ok "")
          (fun _ => Except.ok [{ certname := "n1", ipaddress := "10.0.0.1" }])
          (fun _ => false) true
          (some [("stale.yml", "x"), ("a.yaml", "y")]) :=
  c9_consecutive_cycles_idempotent
    (fun _ => Except.ok
      [{ exporter := "a", port := 9100, path := "/metrics",
         scheme := "http", roles := ["web"] }])
    (Except.ok "")
    (fun _ => Except.ok [{ certname := "n1", ipaddress := "10.0.0.1" }])
    (fun _ => false)
    [{ exporter := "a", port := 9100, path := "/metrics",
       scheme := "http", roles := ["web"] }]
    [("stale.yml", "x"), ("a.yaml", "y")]
    rfl (by decide) (by decide) (fun _ _ => rfl)

end PrometheusPuppetdb
